import Mathlib

/-
Verification of the ro-manager HTTP session and remote-metadata layer.

Shallow embedding of:
  src/MiscUtils/HttpSession.py   (splitValues, parseLinks, HTTP_Session)
  src/rocommand/ro_remote_metadata.py (isInternalResource, _loadManifest,
    _loadAnnotations)

Python strings are modelled as Lean String / List Char; Python dictionaries
as association lists with last-write-wins update; raised Python exceptions
as the error side of Except.  The transport (httplib connection), URI
resolution (urlparse.urljoin/urlsplit), the rdflib parser, requests.get and
json.loads are external collaborators and are passed in as function
parameters, so theorems quantify over their behaviour.
-/

/-! Python string primitives used by the source. -/

/-- Whitespace class of Python regex backslash-s and of str.strip. -/
def isSpacePy (c : Char) : Bool :=
  c = ' ' || c = '\t' || c = '\n' || c = '\r' || c = '\x0b' || c = '\x0c'

/-- First index at which pat occurs as a contiguous sublist of s
(Python substring search). -/
def findSub : List Char → List Char → Option Nat
  | [], pat => if pat.isEmpty then some 0 else none
  | c :: rest, pat =>
    if pat.isPrefixOf (c :: rest) then some 0
    else (findSub rest pat).map (· + 1)

/-- Python infix membership test on strings. -/
def pyContains (s pat : String) : Bool :=
  (findSub s.toList pat.toList).isSome

/-- Python s.split(pat, 1): at most one split, list of one or two parts. -/
def pySplitOnce (s pat : String) : List String :=
  match findSub s.toList pat.toList with
  | none => [s]
  | some i =>
    [String.mk (s.toList.take i), String.mk (s.toList.drop (i + pat.toList.length))]

/-- Python str.strip(): remove leading and trailing whitespace. -/
def pyStrip (s : String) : String :=
  String.mk (((s.toList.dropWhile isSpacePy).reverse.dropWhile isSpacePy).reverse)

/-- Python str.startswith: the second argument is a prefix of the first. -/
def pyStartswith (s pre : String) : Bool :=
  pre.toList.isPrefixOf s.toList

/-- Python slice s[-4:] compared against ".ttl" (HttpSession.py line 347). -/
def pyEndsTtl (s : String) : Bool :=
  String.mk (s.toList.drop (s.toList.length - 4)) == ".ttl"

/-- Python test s[-1] == "/" on a nonempty string. -/
def pyLastIsSlash (s : String) : Bool :=
  s.toList.getLast? == some '/'

/-- Python slice s[:-1]. -/
def pyDropLast (s : String) : String :=
  String.mk s.toList.dropLast

/-- Python str.lower, written over the character list so that it
evaluates by kernel reduction. -/
def pyLower (s : String) : String :=
  String.mk (s.toList.map Char.toLower)

/-! splitValues (HttpSession.py lines 29-59).

The Python function walks the text with a cursor; outside a quoted span a
character in lq opens a span closed by the paired character of rq, a
character in sep ends the current segment, anything else is accumulated;
inside a span a backslash skips the following character and the closing
quote is included in the segment.  The embedding carries the span state
(none = outside, some eq = inside a span awaiting eq) and the current
segment in reverse. -/

def svAux (sep lq rq : List Char) : Option Char → List Char → List Char → List (List Char)
  | _, seg, [] => [seg.reverse]
  | some eq, seg, c :: rest =>
    if c = eq then
      svAux sep lq rq none (c :: seg) rest
    else if c = '\\' then
      match rest with
      | [] => [(c :: seg).reverse]
      | d :: rest2 => svAux sep lq rq (some eq) (d :: c :: seg) rest2
    else
      svAux sep lq rq (some eq) (c :: seg) rest
  | none, seg, c :: rest =>
    if c ∈ lq then
      svAux sep lq rq (some (rq.getD (lq.indexOf c) c)) (c :: seg) rest
    else if c ∈ sep then
      seg.reverse :: svAux sep lq rq none [] rest
    else
      svAux sep lq rq none (c :: seg) rest

/-- splitValues from HttpSession.py: list of delimited values of txt where
separators inside quotes or brackets are protected.  The rq.getD use
mirrors rq[lq.index(c)]; for paired quote lists the default is never
taken (Python would raise IndexError on unpaired lists). -/
def splitValues (txt : List Char) (sep lq rq : List Char) : List (List Char) :=
  svAux sep lq rq none [] txt

/-- The separator characters consumed as segment boundaries by the same
scan that drives splitValues, in order of occurrence. -/
def svSeps (sep lq rq : List Char) : Option Char → List Char → List Char
  | _, [] => []
  | some eq, c :: rest =>
    if c = eq then
      svSeps sep lq rq none rest
    else if c = '\\' then
      match rest with
      | [] => []
      | _ :: rest2 => svSeps sep lq rq (some eq) rest2
    else
      svSeps sep lq rq (some eq) rest
  | none, c :: rest =>
    if c ∈ lq then
      svSeps sep lq rq (some (rq.getD (lq.indexOf c) c)) rest
    else if c ∈ sep then
      c :: svSeps sep lq rq none rest
    else
      svSeps sep lq rq none rest

/-- Unquoted separator positions of txt, as consumed by splitValues. -/
def unquotedSeps (txt : List Char) (sep lq rq : List Char) : List Char :=
  svSeps sep lq rq none txt

/-- Rebuild a string from segments and the separator characters that were
consumed between consecutive segments. -/
def interleave : List (List Char) → List Char → List Char
  | [], _ => []
  | s :: _, [] => s
  | s :: ss, c :: cs => s ++ c :: interleave ss cs

/-- Default separators and quote pairs of splitValues. -/
def sepD : List Char := [',']

def lqD : List Char := ['"', '<']

def rqD : List Char := ['"', '>']

/-! parseLinks (HttpSession.py lines 70-92). -/

/-- re.match of the raw pattern backslash-s* < ([^>]*) > backslash-s*
(HttpSession.py line 83).  re.match anchors at the start only, so the
match consumes optional whitespace, then a bracketed span up to the first
closing angle bracket; anything after the bracket is simply not consumed.
Returns group 1 on success. -/
def linkUriMatch (s : List Char) : Option (List Char) :=
  match s.dropWhile isSpacePy with
  | '<' :: u => if '>' ∈ u then some (u.takeWhile (· != '>')) else none
  | _ => none

/-- True at the positions where the lazy group of the rel pattern may end:
the rest of the input, after an optional double quote, is all whitespace. -/
def relEnd (l : List Char) : Bool :=
  match l with
  | '"' :: rest => rest.all isSpacePy
  | _ => l.all isSpacePy

/-- Lazy group (.*?) of the rel pattern: the shortest prefix whose
remainder satisfies relEnd.  A Python 2 dot does not match a newline,
so the group cannot extend across one: when a newline is reached before
any valid end position the whole match fails (none).  On the empty
input relEnd holds, so the scan never falls off the end. -/
def relGroup : List Char → Option (List Char)
  | [] => some []
  | c :: rest =>
    if relEnd (c :: rest) then some []
    else if c = '\n' then none
    else (relGroup rest).map (c :: ·)

/-- re.match of the raw pattern backslash-s* rel backslash-s* =
backslash-s* "? (.*?) "? backslash-s* $ (HttpSession.py line 87): an
optionally quoted rel parameter value, matched non-greedily, trailing
whitespace stripped.  The leading optional quote is greedy; giving it
back, or giving back characters consumed by the greedy whitespace, can
never rescue a failed match (the candidate group end positions and the
newline obstruction are the same), so the scan needs no backtracking.
A value region whose newline is followed by non-whitespace fails the
match and the parameter is ignored, because the dot of the lazy group
cannot consume the newline. -/
def relMatch (s : List Char) : Option (List Char) :=
  match s.dropWhile isSpacePy with
  | 'r' :: 'e' :: 'l' :: t1 =>
    match t1.dropWhile isSpacePy with
    | '=' :: t3 =>
      let r := t3.dropWhile isSpacePy
      let r1 := match r with
        | '"' :: rr => rr
        | _ => r
      relGroup r1
    | _ => none
  | _ => none

/-- Python dictionary assignment d[k] = v, modelled on an association
list: replace the binding if the key is present, else append. -/
def dictUpsert {β : Type} (m : List (String × β)) (k : String) (v : β) : List (String × β) :=
  if m.any (fun p => p.1 = k) then
    m.map (fun p => if p.1 = k then (k, v) else p)
  else
    m ++ [(k, v)]

/-- Python dictionary lookup d.get(k). -/
def dictGet {β : Type} (m : List (String × β)) (k : String) : Option β :=
  (m.find? (fun p => p.1 = k)).map (·.2)

/-- parseLinks from HttpSession.py: dictionary of link URIs keyed by link
relation type, built from the headers named link (case-insensitive) of an
ordered (name, value) header list. -/
def parseLinks (headerlist : List (String × String)) : List (String × String) :=
  let linkheaders := (headerlist.filter (fun p => pyLower p.1 == "link")).map (·.2)
  linkheaders.foldl (fun links0 linkheader =>
    (splitValues linkheader.toList sepD lqD rqD).foldl (fun links1 linkval =>
      match splitValues linkval [';'] lqD rqD with
      | [] => links1
      | p0 :: ps =>
        match linkUriMatch p0 with
        | none => links1
        | some linkuri =>
          ps.foldl (fun links2 linkparam =>
            match relMatch linkparam with
            | some linkrel => dictUpsert links2 (String.mk linkrel) (String.mk linkuri)
            | none => links2) links1) links0) []

/-- The (relation, uri) pairs contributed by one link header value, in
the order the nested loops of parseLinks produce them. -/
def linkContribs1 (v : List Char) : List (String × String) :=
  (splitValues v sepD lqD rqD).flatMap (fun linkval =>
    match splitValues linkval [';'] lqD rqD with
    | [] => []
    | p0 :: ps =>
      match linkUriMatch p0 with
      | none => []
      | some linkuri =>
        ps.filterMap (fun linkparam =>
          (relMatch linkparam).map (fun linkrel => (String.mk linkrel, String.mk linkuri))))

/-- All (relation, uri) pairs contributed by the link headers of a header
list, in order. -/
def linkContribs (headerlist : List (String × String)) : List (String × String) :=
  ((headerlist.filter (fun p => pyLower p.1 == "link")).map (·.2)).flatMap
    (fun v => linkContribs1 v.toList)

/-- Apply a list of (key, value) contributions to a dict in order. -/
def applyContribs (m : List (String × String)) (cs : List (String × String)) : List (String × String) :=
  cs.foldl (fun m2 c => dictUpsert m2 c.1 c.2) m

/-- Shape test written from the words of claim C8: the segment IS a
bracketed URI with surrounding whitespace ignored, so nothing but
whitespace may follow the closing angle bracket.  Compare linkUriMatch,
the shape test the code actually applies. -/
def claimBracketedUriShape (s : List Char) : Option (List Char) :=
  match s.dropWhile isSpacePy with
  | '<' :: u =>
    if '>' ∈ u ∧ (u.dropWhile (· != '>')).tail.all isSpacePy then
      some (u.takeWhile (· != '>'))
    else none
  | _ => none

/-! HTTP_Session (HttpSession.py lines 134-313).

The session holds the parsed pieces of its base URI and an optional
access key, as set up by __init__.  urlparse.urlsplit(urljoin(baseuri, u))
is modelled by an abstract resolver function; the httplib connection is
modelled by an abstract transport consulted with the chosen connection
and the assembled request. -/

/-- A value stored in a Python response-header dictionary: all real
headers are strings, the synthetic _headerlist entry is a list of
(name, value) pairs. -/
inductive HVal where
  | str (s : String)
  | list (l : List (String × String))
deriving DecidableEq, Repr

/-- Python dict(pairs): later pairs win over earlier ones with the same key. -/
def dictOfPairs (l : List (String × String)) : List (String × String) :=
  l.foldl (fun m p => dictUpsert m p.1 p.2) []

/-- Result of urlparse.urlsplit on the resolved request URI. -/
structure UriParts where
  scheme : String
  netloc : String
  path : String
  query : String
deriving DecidableEq, Repr

/-- HTTP_Session state after __init__: base URI, its split scheme and
netloc, and the optional access key. -/
structure Session where
  baseuri : String
  scheme : String
  host : String
  key : Option String
deriving DecidableEq, Repr

/-- Exceptions the embedded code can raise. -/
inductive PyExn where
  | httpError (msg : String) (value : Option String) (uri : String)
  | transportExn (desc : String)
  | keyError (k : String)
  | typeError
  | indexError
  | jsonError (desc : String)
  | nameError
deriving DecidableEq, Repr

/-- Which httplib connection a request is issued on: the persistent
session connection or a new transient HTTPConnection(netloc). -/
inductive ConnChoice where
  | session
  | transient (netloc : String)
deriving DecidableEq, Repr

def ConnChoice.isTransient : ConnChoice → Bool
  | .session => false
  | .transient _ => true

/-- The request handed to usehttpcon.request(method, path, body, headers). -/
structure SentRequest where
  method : String
  path : String
  body : Option String
  headers : List (String × String)
deriving DecidableEq, Repr

/-- What the transport did for one request: raised during request(),
raised during getresponse()/read(), or produced a response. -/
structure RawResponse where
  status : Int
  reason : String
  rawheaders : List (String × String)
  body : String
deriving DecidableEq, Repr

inductive TransportResult where
  | sendErr (e : String)
  | recvErr (e : String)
  | ok (r : RawResponse)
deriving DecidableEq, Repr

/-- A transport assigns an outcome to every (connection, request) pair. -/
def Transport : Type := ConnChoice → SentRequest → TransportResult

/-- Everything doRequest produces when it returns: the connection it
used, the request it sent, the returned 4-tuple, whether a transient
connection was closed on the way out (line 272), and the caller-visible
state of the reqheaders dictionary after the call.  Python mutates a
truthy caller-supplied reqheaders dict in place when attaching the
authorization, content-type and accept headers (lines 239-246); a falsy
one is replaced by a fresh local dict, leaving the caller value
unchanged. -/
structure DoReqOutcome where
  conn : ConnChoice
  sent : SentRequest
  status : Int
  reason : String
  headers : List (String × HVal)
  data : Option String
  newConnClosed : Bool
  reqh : List (String × String)
deriving DecidableEq, Repr

/-- Connection selection of doRequest (HttpSession.py lines 215-237):
returns the connection and the key to use, or raises on a scheme or
host:port mismatch without exthost.  The final nameError arm mirrors the
fact that Python would leave usehttpcon unassigned there; it is
unreachable because the outer condition forces one of the two
mismatches. -/
def connSelect (sess : Session) (parts : UriParts) (exthost : Bool) :
    Except PyExn (ConnChoice × Option String) :=
  if (parts.scheme ≠ "" ∧ parts.scheme ≠ sess.scheme) ∨
     (parts.netloc ≠ "" ∧ parts.netloc ≠ sess.host) then
    if exthost then
      .ok (.transient parts.netloc, none)
    else if parts.scheme ≠ "" ∧ parts.scheme ≠ sess.scheme then
      .error (.httpError "URI scheme mismatch" (some parts.scheme) sess.baseuri)
    else if parts.netloc ≠ "" ∧ parts.netloc ≠ sess.host then
      .error (.httpError "URI host:port mismatch" (some parts.netloc) sess.baseuri)
    else
      .error .nameError
  else
    .ok (.session, sess.key)

/-- Request path: uriparts.path plus ?query when the query is nonempty
(lines 213-214). -/
def requestPath (parts : UriParts) : String :=
  parts.path ++ (if parts.query ≠ "" then "?" ++ parts.query else "")

/-- Header assembly (lines 239-246).  Python truthiness: an empty-string
key, ctype or accept is falsy and adds nothing. -/
def buildReqHeaders (usekey ctype accept : Option String)
    (reqheaders : List (String × String)) : List (String × String) :=
  let h1 := match usekey with
    | some k => if k = "" then reqheaders else dictUpsert reqheaders "authorization" ("Bearer " ++ k)
    | none => reqheaders
  let h2 := match ctype with
    | some c => if c = "" then h1 else dictUpsert h1 "content-type" c
    | none => h1
  match accept with
  | some a => if a = "" then h2 else dictUpsert h2 "accept" a
  | none => h2

/-- HTTP_Session.doRequest (lines 191-274).  The call to
usehttpcon.request on line 252 stands before the try block, so a sendErr
from the transport propagates as an exception; the try block around
getresponse()/read() turns a recvErr into the synthetic 900 response. -/
def doRequest (resolve : String → UriParts) (sess : Session) (transport : Transport)
    (uripath method : String) (bodyArg : Option String) (ctype accept : Option String)
    (reqheaders : List (String × String)) (exthost : Bool) :
    Except PyExn DoReqOutcome :=
  let parts := resolve uripath
  match connSelect sess parts exthost with
  | .error e => .error e
  | .ok (conn, usekey) =>
    let hdrs := buildReqHeaders usekey ctype accept reqheaders
    let reqhAfter := if reqheaders.isEmpty then reqheaders else hdrs
    let sent : SentRequest := ⟨method, requestPath parts, bodyArg, hdrs⟩
    match transport conn sent with
    | .sendErr e => .error (.transportExn e)
    | .recvErr e =>
      .ok ⟨conn, sent, 900, e, [("_headerlist", .list [])], none, conn.isTransient, reqhAfter⟩
    | .ok r =>
      let headerlist := r.rawheaders.map (fun p => (pyLower p.1, p.2))
      let headers :=
        dictUpsert ((dictOfPairs headerlist).map (fun p => (p.1, HVal.str p.2)))
          "_headerlist" (.list headerlist)
      .ok ⟨conn, sent, r.status, r.reason, headers,
        (if r.status < 200 ∨ 300 ≤ r.status then none else some r.body),
        conn.isTransient, reqhAfter⟩

/-- HTTP_Session.parseLinks (lines 185-189): parse the link headers out
of the synthetic _headerlist entry of a response header dict.  A missing
entry raises KeyError; a string-valued entry would not be a header list
(modelled as a TypeError). -/
def sessionParseLinks (headers : List (String × HVal)) : Except PyExn (List (String × String)) :=
  match dictGet headers "_headerlist" with
  | some (.list l) => .ok (parseLinks l)
  | some (.str _) => .error .typeError
  | none => .error (.keyError "_headerlist")

/-- headers["location"] on a redirect response (lines 301 and 308). -/
def getLocation (headers : List (String × HVal)) : Except PyExn String :=
  match dictGet headers "location" with
  | some (.str s) => .ok s
  | some (.list _) => .error .typeError
  | none => .error (.keyError "location")

/-- Outcome of doRequestFollowRedirect: the outcomes of the one to three
requests issued, in order, and the returned 5-tuple (the final URI is
the last value of the uripath variable). -/
structure RedirOutcome where
  trace : List DoReqOutcome
  status : Int
  reason : String
  headers : List (String × HVal)
  finalUri : String
  data : Option String
deriving DecidableEq, Repr

/-- Second conditional of doRequestFollowRedirect (lines 306-312),
applied to whatever response is current after the first conditional.
The re-issued request omits the accept argument, and it receives the
caller-visible reqheaders state left by the previous call, because the
source passes the same dict object to every doRequest call and doRequest
mutates it in place when it is truthy. -/
def redirectSecondStep (resolve : String → UriParts) (sess : Session) (transport : Transport)
    (method : String) (bodyArg : Option String) (ctype : Option String)
    (exthost : Bool) (trace : List DoReqOutcome) (uri : String) (cur : DoReqOutcome) :
    Except PyExn RedirOutcome :=
  if cur.status = 302 ∨ cur.status = 307 then
    match getLocation cur.headers with
    | .error e => .error e
    | .ok u3 =>
      match doRequest resolve sess transport u3 method bodyArg ctype none cur.reqh exthost with
      | .error e => .error e
      | .ok o3 => .ok ⟨trace ++ [o3], o3.status, o3.reason, o3.headers, u3, o3.data⟩
  else
    .ok ⟨trace, cur.status, cur.reason, cur.headers, uri, cur.data⟩

/-- HTTP_Session.doRequestFollowRedirect (lines 276-313): issue the
request; if the status is 302, 303 or 307 re-issue it at the location
header; if the status then is 302 or 307 allow one more temporary
redirect (without the accept argument, per the source). -/
def doRequestFollowRedirect (resolve : String → UriParts) (sess : Session) (transport : Transport)
    (uripath method : String) (bodyArg : Option String) (ctype accept : Option String)
    (reqheaders : List (String × String)) (exthost : Bool) :
    Except PyExn RedirOutcome :=
  match doRequest resolve sess transport uripath method bodyArg ctype accept reqheaders exthost with
  | .error e => .error e
  | .ok o1 =>
    if o1.status = 302 ∨ o1.status = 303 ∨ o1.status = 307 then
      match getLocation o1.headers with
      | .error e => .error e
      | .ok u2 =>
        match doRequest resolve sess transport u2 method bodyArg ctype accept o1.reqh exthost with
        | .error e => .error e
        | .ok o2 =>
          redirectSecondStep resolve sess transport method bodyArg ctype exthost
            [o1, o2] u2 o2
    else
      redirectSecondStep resolve sess transport method bodyArg ctype exthost
        [o1] uripath o1

/-! doRequestRDF (HttpSession.py lines 315-436). -/

/-- The response body position of doRequestRDF: absent (non-2xx from
doRequest), a raw string, or a parsed RDF graph. -/
inductive Body (α : Type) where
  | none
  | raw (s : String)
  | graph (g : List α)
deriving DecidableEq, Repr

/-- The string handed to rdfgraph.parse(data=...).  Only the raw case is
reachable at the parse call: doRequest yields a raw body exactly on 2xx
statuses, and the w3id branch always produces a string. -/
def Body.asString {α : Type} : Body α → String
  | .raw s => s
  | _ => ""

/-- RDF_CONTENT_TYPES (lines 18-25). -/
def rdfContentTypes : List (String × String) :=
  [ ("application/rdf+xml", "xml")
  , ("text/turtle", "n3")
  , ("text/n3", "n3")
  , ("text/nt", "nt")
  , ("application/json", "jsonld")
  , ("application/xhtml", "rdfa") ]

def acceptRdfContentTypes : String := "application/rdf+xml, text/turtle"

def w3idPrefix : String := "w3id.org/ro-id"

def w3idDevPrefix : String := "w3id.org/ro-id-dev"

def indexEndpoint : String := "https://api.rohub.org/api/search/manifests/?identifier="

def indexDevEndpoint : String := "https://rohub2020-rohub.apps.paas-dev.psnc.pl/api/search/manifests/?identifier="

/-- Python list indexing l[1] on the result of split: IndexError when the
separator was absent. -/
def pyIndex1 (l : List String) : Except PyExn String :=
  match l.get? 1 with
  | some s => .ok s
  | none => .error .indexError

/-- Python list indexing l[0] on the result of split (always present). -/
def pyIndex0 (l : List String) : String :=
  l.headD ""

/-- A response of the external requests library (requests.get or
session.get), as used by the w3id branch: final URL after its own
redirects, status, reason, header dict and content. -/
structure ExtResponse where
  url : String
  status_code : Int
  reason : String
  headers : List (String × HVal)
  content : String

/-- URI rewriting of the w3id branch (lines 346-386): map a w3id.org
research-object URI to a search-index query URI.  extGet models the
requests.get call used to discover the redirected URL of annotation and
folder resources. -/
def w3idRewrite (extGet : String → ExtResponse) (uripath : String) : Except PyExn String :=
  if pyEndsTtl uripath then
    if pyContains uripath "evo_info" || pyContains uripath "enrichment" ||
       pyContains uripath "folders" then
      let r := extGet uripath
      match
        (if pyContains uripath "folders" then pyIndex1 (pySplitOnce r.url "folders/")
         else pyIndex1 (pySplitOnce r.url "annotations/")) with
      | .error e => .error e
      | .ok annotation =>
        let annotationId := pyIndex0 (pySplitOnce annotation "/download/")
        if pyContains uripath w3idDevPrefix then
          .ok (indexDevEndpoint ++ annotationId)
        else
          .ok (indexEndpoint ++ annotationId)
    else if pyContains uripath "manifest" then
      if pyContains uripath w3idDevPrefix then
        match pyIndex1 (pySplitOnce uripath (w3idDevPrefix ++ "/")) with
        | .error e => .error e
        | .ok annotation =>
          .ok (indexDevEndpoint ++ pyIndex0 (pySplitOnce annotation "/.ro/manifest.ttl"))
      else
        match pyIndex1 (pySplitOnce uripath (w3idPrefix ++ "/")) with
        | .error e => .error e
        | .ok annotation =>
          .ok (indexEndpoint ++ pyIndex0 (pySplitOnce annotation "/.ro/manifest.ttl"))
    else
      match pyIndex1 (pySplitOnce uripath "annotations/") with
      | .error e => .error e
      | .ok annotation =>
        let annotationId := pyIndex0 (pySplitOnce annotation ".ttl")
        if pyContains uripath w3idDevPrefix then
          .ok (indexDevEndpoint ++ annotationId)
        else
          .ok (indexEndpoint ++ annotationId)
  else
    let u0 := if pyLastIsSlash uripath then pyDropLast uripath else uripath
    if pyContains u0 w3idDevPrefix then
      match pyIndex1 (pySplitOnce u0 "ro-id-dev/") with
      | .error e => .error e
      | .ok roId => .ok (indexDevEndpoint ++ roId)
    else
      match pyIndex1 (pySplitOnce u0 "ro-id/") with
      | .error e => .error e
      | .ok roId => .ok (indexEndpoint ++ roId)

/-- The response tuple doRequestRDF holds just before its content-type
dispatch: the (possibly rewritten) uripath and (status, reason, headers,
data).  jsonText models json.loads plus the extraction of
output["results"][0]["text"]: an error propagates (json or key errors),
none models a missing or empty results list (data becomes the empty
string), some t models a first result with text t. -/
def rdfPreStage {α : Type} (resolve : String → UriParts) (sess : Session)
    (transport : Transport) (extGet : String → ExtResponse)
    (jsonText : String → Except PyExn (Option String))
    (uripath method : String) (bodyArg : Option String) (ctype : Option String)
    (reqheaders : List (String × String)) (exthost : Bool) :
    Except PyExn (String × Int × String × List (String × HVal) × Body α) :=
  if pyContains uripath w3idPrefix then
    match w3idRewrite extGet uripath with
    | .error e => .error e
    | .ok uripath2 =>
      let response := extGet uripath2
      match jsonText response.content with
      | .error e => .error e
      | .ok extracted =>
        let data := match extracted with
          | none => ""
          | some t => t
        .ok (uripath2, response.status_code, response.reason, response.headers, .raw data)
  else
    match doRequest resolve sess transport uripath method bodyArg ctype
        (some acceptRdfContentTypes) reqheaders exthost with
    | .error e => .error e
    | .ok o =>
      let data : Body α := match o.data with
        | some s => .raw s
        | none => .none
      .ok (uripath, o.status, o.reason, o.headers, data)

/-- Serialization passed to rdfgraph.parse (lines 417-420): forced to
turtle for index-endpoint URIs, else the RDF_CONTENT_TYPES entry. -/
def rdfFormatFor (uripath ctFormat : String) : String :=
  if pyContains uripath indexEndpoint || pyContains uripath indexDevEndpoint then "turtle"
  else ctFormat

/-- Content-type dispatch of doRequestRDF (lines 411-436).  rdfParse
models rdflib parsing: given the graph parsed into, the format and the
data it returns the resulting graph, or nothing on a parse failure. -/
def rdfDispatch {α : Type} (rdfParse : List α → String → String → Option (List α))
    (graphArg : Option (List α)) (uripath : String) (status : Int) (reason : String)
    (headers : List (String × HVal)) (data : Body α) :
    Except PyExn (Int × String × List (String × HVal) × Body α) :=
  if 200 ≤ status ∧ status < 300 then
    match dictGet headers "content-type" with
    | none => .error (.keyError "content-type")
    | some (.list _) => .error .typeError
    | some (.str ct) =>
      let contentType := pyLower (pyStrip (pyIndex0 (pySplitOnce ct ";")))
      match dictGet rdfContentTypes contentType with
      | none => .ok (901, "Non-RDF content-type returned", headers, data)
      | some ctFormat =>
        let rdfgraph := graphArg.getD []
        let bodyformat := rdfFormatFor uripath ctFormat
        match rdfParse rdfgraph bodyformat data.asString with
        | some g2 => .ok (status, reason, headers, .graph g2)
        | none => .ok (902, "RDF (" ++ bodyformat ++ ") parse failure", headers, data)
  else
    .ok (status, reason, headers, data)

/-- HTTP_Session.doRequestRDF (lines 315-436): the pre-stage response is
run through the content-type dispatch. -/
def doRequestRDF {α : Type} (resolve : String → UriParts) (sess : Session)
    (transport : Transport) (extGet : String → ExtResponse)
    (jsonText : String → Except PyExn (Option String))
    (rdfParse : List α → String → String → Option (List α))
    (uripath method : String) (bodyArg : Option String) (ctype : Option String)
    (reqheaders : List (String × String)) (exthost : Bool) (graphArg : Option (List α)) :
    Except PyExn (Int × String × List (String × HVal) × Body α) :=
  match rdfPreStage (α := α) resolve sess transport extGet jsonText uripath method
      bodyArg ctype reqheaders exthost with
  | .error e => .error e
  | .ok (u, status, reason, headers, data) =>
    rdfDispatch rdfParse graphArg u status reason headers data

/-! ro_remote_metadata.py. -/

/-- isInternalResource (ro_remote_metadata.py lines 239-244), verbatim:
rouri.startswith(resuri). -/
def isInternalResource (rouri resuri : String) : Bool :=
  pyStartswith rouri resuri

/-- Cache state of an ro_remote_metadata object: the manifestgraph field,
initially None. -/
structure ROCache (α : Type) where
  manifestgraph : Option (List α)
deriving DecidableEq, Repr

/-- Python truthiness of the manifestgraph field: None is falsy, and an
rdflib Graph defines length but not a boolean conversion, so an empty
graph is falsy as well. -/
def pyGraphTruthy {α : Type} : Option (List α) → Bool
  | none => false
  | some g => !g.isEmpty

/-- _loadManifest (lines 84-93).  fetchParse models parsing the manifest
URI into a fresh graph; in dummy mode a single type triple is added
instead.  Returns the new state, the returned graph, and how many
fetch-and-parse operations the call performed. -/
def loadManifest {α : Type} (dummyfortest : Bool) (dummyTriple : α)
    (fetchParse : Unit → List α) (st : ROCache α) : ROCache α × List α × Nat :=
  if pyGraphTruthy st.manifestgraph then
    (st, st.manifestgraph.getD [], 0)
  else
    let g := if dummyfortest then [dummyTriple] else fetchParse ()
    (⟨some g⟩, g, 1)

/-- Modelled from the spec: _readAnnotationBody is commented out in
ro_remote_metadata.py (lines 414-437), yet _loadAnnotations calls it, so
its behaviour is taken from the spec: dereference the annotation body
URI and merge the resulting graph into the accumulating annotation
graph; a dereference failure is logged, not raised, and contributes
nothing.  deref models the dereference through the RDF layer: some g on
success, none on failure. -/
def readAnnotationBody {α : Type} (deref : String → Option (List α))
    (annotationref : String) (anngr : List α) : List α :=
  match deref annotationref with
  | some g => anngr ++ g
  | none => anngr

/-- _loadAnnotations (lines 95-105), assembling the combined annotation
graph from the body URIs the manifest declares: every body is
dereferenced and merged; failures are skipped. -/
def loadAnnotations {α : Type} (deref : String → Option (List α))
    (bodyUris : List String) : List α :=
  bodyUris.foldl (fun g u => readAnnotationBody deref u g) []

/-! Association-list dictionary lemmas. -/

theorem dictGet_nil {β : Type} (k : String) : dictGet ([] : List (String × β)) k = none := rfl

theorem dictGet_cons {β : Type} (p : String × β) (m : List (String × β)) (k : String) :
    dictGet (p :: m) k = if p.1 = k then some p.2 else dictGet m k := by
  by_cases h : p.1 = k <;> simp [dictGet, List.find?_cons, h]

theorem dictGet_map_ne {β : Type} (m : List (String × β)) (k k2 : String) (v : β) (h : k2 ≠ k) :
    dictGet (m.map (fun p => if p.1 = k then (k, v) else p)) k2 = dictGet m k2 := by
  induction m with
  | nil => rfl
  | cons q rest ih =>
    by_cases hq : q.1 = k
    · simp [dictGet_cons, hq, Ne.symm h, ih]
    · simp [dictGet_cons, hq, ih]

theorem dictGet_map_self {β : Type} (m : List (String × β)) (k : String) (v : β)
    (h : m.any (fun p => p.1 = k)) :
    dictGet (m.map (fun p => if p.1 = k then (k, v) else p)) k = some v := by
  induction m with
  | nil => simp at h
  | cons q rest ih =>
    by_cases hq : q.1 = k
    · simp [dictGet_cons, hq]
    · simp only [List.any_cons, Bool.or_eq_true, decide_eq_true_eq] at h
      rcases h with h | h
      · exact absurd h hq
      · simp [dictGet_cons, hq, ih h]

theorem dictGet_append_sn {β : Type} (m : List (String × β)) (k k2 : String) (v : β) (h : k2 ≠ k) :
    dictGet (m ++ [(k, v)]) k2 = dictGet m k2 := by
  induction m with
  | nil => simp [dictGet_cons, Ne.symm h, dictGet_nil]
  | cons q rest ih =>
    by_cases hq : q.1 = k2 <;> simp [dictGet_cons, hq, ih]

theorem dictGet_append_self {β : Type} (m : List (String × β)) (k : String) (v : β)
    (h : m.any (fun p => p.1 = k) = false) :
    dictGet (m ++ [(k, v)]) k = some v := by
  induction m with
  | nil => simp [dictGet_cons, dictGet_nil]
  | cons q rest ih =>
    simp only [List.any_cons, Bool.or_eq_false_iff, decide_eq_false_iff_not] at h
    simp [dictGet_cons, h.1]
    exact ih (by simp [h.2])

theorem dictGet_upsert {β : Type} (m : List (String × β)) (k : String) (v : β) (k2 : String) :
    dictGet (dictUpsert m k v) k2 = if k2 = k then some v else dictGet m k2 := by
  unfold dictUpsert
  by_cases hany : m.any (fun p => p.1 = k)
  · rcases eq_or_ne k2 k with h | h
    · subst h; simp [hany, dictGet_map_self m k2 v hany]
    · simp [hany, dictGet_map_ne m k k2 v h, h]
  · rcases eq_or_ne k2 k with h | h
    · subst h
      simp only [Bool.not_eq_true] at hany
      simp [hany, dictGet_append_self m k2 v hany]
    · simp only [Bool.not_eq_true] at hany
      simp [hany, dictGet_append_sn m k k2 v h, h]

/-! Claims C5, C6, C9. -/

/-- C5 The claim states that isInternalResource(rouri, resuri) returns
true iff the resource URI has the RO URI as a string prefix.  The code
computes rouri.startswith(resuri), testing the opposite containment:
evaluated at the failing input rouri = http://example.org/ro/ and
resuri = http://example.org/ro/data/a.txt, the code returns false while
the resource URI does have the RO URI as a prefix (and the docstring of
the method states the claimed behaviour). -/
theorem c5_isInternalResource_args_swapped :
    isInternalResource "http://example.org/ro/" "http://example.org/ro/data/a.txt" = false
    ∧ pyStartswith "http://example.org/ro/data/a.txt" "http://example.org/ro/" = true :=
  ⟨rfl, rfl⟩

/-- C6 Assembling the combined annotation graph dereferences every
annotation body URI and merges the successful results; a triple is in
the merged graph exactly when some declared body URI dereferences
successfully to a graph containing it, so a failed body contributes
nothing and does not abort the others, and the assembly is a total
function (no exception reaches the caller).  The body-reading step is
modelled from the spec because _readAnnotationBody is commented out in
the source. -/
theorem c6_loadAnnotations_partial_assembly {α : Type} (deref : String → Option (List α))
    (bodyUris : List String) (t : α) :
    t ∈ loadAnnotations deref bodyUris ↔
      ∃ u ∈ bodyUris, ∃ g, deref u = some g ∧ t ∈ g := by
  have key : ∀ (us : List String) (acc : List α),
      t ∈ us.foldl (fun g u => readAnnotationBody deref u g) acc ↔
        t ∈ acc ∨ ∃ u ∈ us, ∃ g, deref u = some g ∧ t ∈ g := by
    intro us
    induction us with
    | nil => simp
    | cons u rest ih =>
      intro acc
      rw [List.foldl_cons, ih]
      cases hd : deref u with
      | none =>
        simp only [readAnnotationBody, hd, List.mem_cons]
        constructor
        · rintro (h | ⟨v, hv, g, hg, ht⟩)
          · exact Or.inl h
          · exact Or.inr ⟨v, Or.inr hv, g, hg, ht⟩
        · rintro (h | ⟨v, hv, g, hg, ht⟩)
          · exact Or.inl h
          · rcases hv with rfl | hv
            · rw [hd] at hg; cases hg
            · exact Or.inr ⟨v, hv, g, hg, ht⟩
      | some g0 =>
        simp only [readAnnotationBody, hd, List.mem_append, List.mem_cons]
        constructor
        · rintro ((h | h) | ⟨v, hv, g, hg, ht⟩)
          · exact Or.inl h
          · exact Or.inr ⟨u, Or.inl rfl, g0, hd, h⟩
          · exact Or.inr ⟨v, Or.inr hv, g, hg, ht⟩
        · rintro (h | ⟨v, hv, g, hg, ht⟩)
          · exact Or.inl (Or.inl h)
          · rcases hv with rfl | hv
            · rw [hd] at hg
              injection hg with hg2
              subst hg2
              exact Or.inl (Or.inr ht)
            · exact Or.inr ⟨v, hv, g, hg, ht⟩
  rw [loadAnnotations, key bodyUris []]
  simp

/-- C9 The claim says a completed _loadManifest is never re-run.  The
cache test is Python truthiness of the graph, and an empty graph is
falsy: with a manifest that parses to the empty graph, the second call
performs a second fetch-and-parse (load count 1, not 0). -/
theorem c9_loadManifest_refetches_empty_graph :
    loadManifest false (0 : Nat) (fun _ => []) ⟨none⟩ = (⟨some []⟩, [], 1)
    ∧ loadManifest false (0 : Nat) (fun _ => [])
        (loadManifest false (0 : Nat) (fun _ => []) ⟨none⟩).1 = (⟨some []⟩, [], 1) :=
  ⟨rfl, rfl⟩

/-- C9 (amended) Once _loadManifest has completed with a nonempty
manifest graph, every subsequent call performs no further fetch or parse
and returns the identical cached graph with the state unchanged. -/
theorem c9_loadManifest_idempotent_nonempty {α : Type} (dummy : Bool) (tr : α)
    (fetch : Unit → List α) (st st2 : ROCache α) (g : List α) (n : Nat)
    (h : loadManifest dummy tr fetch st = (st2, g, n)) (hg : g ≠ []) :
    loadManifest dummy tr fetch st2 = (st2, g, 0) := by
  by_cases ht : pyGraphTruthy st.manifestgraph
  · rw [loadManifest, if_pos ht] at h
    simp only [Prod.mk.injEq] at h
    obtain ⟨rfl, rfl, rfl⟩ := h
    rw [loadManifest, if_pos ht]
  · rw [loadManifest, if_neg ht] at h
    simp only [Prod.mk.injEq] at h
    obtain ⟨rfl, rfl, rfl⟩ := h
    have htruthy : pyGraphTruthy
        (ROCache.manifestgraph ⟨some (if dummy then [tr] else fetch ())⟩) = true := by
      simp [pyGraphTruthy, List.isEmpty_iff, hg]
    rw [loadManifest, if_pos htruthy]
    simp

/-- C9 witness: a one-triple manifest is loaded once and the second call
returns the cached graph without fetching. -/
theorem c9_loadManifest_idempotent_witness :
    loadManifest false (0 : Nat) (fun _ => [1]) ⟨some [1]⟩ = (⟨some [1]⟩, [1], 0) :=
  c9_loadManifest_idempotent_nonempty false 0 (fun _ => [1]) ⟨none⟩ ⟨some [1]⟩ [1] 1 rfl
    (by simp)

/-! Lemmas about connection selection and header assembly. -/

theorem connSelect_mismatch_scheme (sess : Session) (parts : UriParts)
    (hs : parts.scheme ≠ "" ∧ parts.scheme ≠ sess.scheme) :
    connSelect sess parts false
      = .error (.httpError "URI scheme mismatch" (some parts.scheme) sess.baseuri) := by
  unfold connSelect
  rw [if_pos (Or.inl hs)]
  simp [hs]

theorem connSelect_mismatch_host (sess : Session) (parts : UriParts)
    (hns : ¬(parts.scheme ≠ "" ∧ parts.scheme ≠ sess.scheme))
    (hh : parts.netloc ≠ "" ∧ parts.netloc ≠ sess.host) :
    connSelect sess parts false
      = .error (.httpError "URI host:port mismatch" (some parts.netloc) sess.baseuri) := by
  unfold connSelect
  rw [if_pos (Or.inr hh)]
  simp [hns, hh]

theorem connSelect_exthost (sess : Session) (parts : UriParts)
    (hmis : (parts.scheme ≠ "" ∧ parts.scheme ≠ sess.scheme) ∨
            (parts.netloc ≠ "" ∧ parts.netloc ≠ sess.host)) :
    connSelect sess parts true = .ok (.transient parts.netloc, none) := by
  unfold connSelect
  rw [if_pos hmis]
  rfl

theorem buildReqHeaders_auth_of_none (ctype accept : Option String)
    (reqheaders : List (String × String)) :
    dictGet (buildReqHeaders none ctype accept reqheaders) "authorization"
      = dictGet reqheaders "authorization" := by
  unfold buildReqHeaders
  rcases ctype with _ | c
  · rcases accept with _ | a
    · rfl
    · by_cases ha : a = "" <;> simp [ha, dictGet_upsert]
  · rcases accept with _ | a
    · by_cases hc : c = "" <;> simp [hc, dictGet_upsert]
    · by_cases hc : c = "" <;> by_cases ha : a = "" <;> simp [hc, ha, dictGet_upsert]

/-- C1 (amended) A transport failure raised while reading the response
(getresponse or read, the try block of doRequest) is caught and converted
into a returned 4-tuple with status 900, reason the failure description,
header collection exactly the singleton _headerlist-to-empty-list map and
absent body; but a transport failure raised while issuing the request
(usehttpcon.request, before the try block) escapes as an exception. -/
theorem c1_doRequest_recv_failures (resolve : String → UriParts) (sess : Session)
    (transport : Transport) (uripath method : String) (bodyArg : Option String)
    (ctype accept : Option String) (reqheaders : List (String × String)) (exthost : Bool)
    (conn : ConnChoice) (usekey : Option String)
    (hconn : connSelect sess (resolve uripath) exthost = .ok (conn, usekey)) :
    (∀ e, transport conn ⟨method, requestPath (resolve uripath), bodyArg,
        buildReqHeaders usekey ctype accept reqheaders⟩ = .recvErr e →
      doRequest resolve sess transport uripath method bodyArg ctype accept reqheaders exthost
        = .ok ⟨conn, ⟨method, requestPath (resolve uripath), bodyArg,
            buildReqHeaders usekey ctype accept reqheaders⟩, 900, e,
            [("_headerlist", .list [])], none, conn.isTransient,
            (if reqheaders.isEmpty then reqheaders
             else buildReqHeaders usekey ctype accept reqheaders)⟩)
    ∧ (∀ e, transport conn ⟨method, requestPath (resolve uripath), bodyArg,
        buildReqHeaders usekey ctype accept reqheaders⟩ = .sendErr e →
      doRequest resolve sess transport uripath method bodyArg ctype accept reqheaders exthost
        = .error (.transportExn e)) := by
  constructor <;> intro e htr <;> simp only [doRequest, hconn, htr]

/-- Concrete fixtures. -/
def sessEx : Session := ⟨"http://h/", "http", "h", none⟩

def resolveEx : String → UriParts := fun u => ⟨"http", "h", u, ""⟩

def resolveOther : String → UriParts := fun u => ⟨"http", "other", u, ""⟩

def transportRefused : Transport := fun _ _ => .sendErr "Connection refused"

def transportTimeout : Transport := fun _ _ => .recvErr "timed out"

def transportOk200 : Transport := fun _ _ =>
  .ok ⟨200, "OK", [("Content-Type", "text/plain")], "hello"⟩

/-- C1 counterexample: a connection-refused failure raised while issuing
the request escapes from doRequest as an exception instead of being
converted into a status-900 response, because usehttpcon.request stands
before the try block. -/
theorem c1_request_exception_escapes :
    doRequest resolveEx sessEx transportRefused "/x" "GET" none none none [] false
      = .error (.transportExn "Connection refused") := rfl

/-- C1 witness: a failure while reading the response is converted into
the synthetic 900 response. -/
theorem c1_witness :
    doRequest resolveEx sessEx transportTimeout "/x" "GET" none none none [] false
      = .ok ⟨.session, ⟨"GET", "/x", none, []⟩, 900, "timed out",
          [("_headerlist", .list [])], none, false, []⟩ :=
  (c1_doRequest_recv_failures resolveEx sessEx transportTimeout "/x" "GET" none none none
    [] false .session none rfl).1 "timed out" rfl

/-- C2 For a request whose resolved URI differs from the session
endpoint in scheme or host:port: with exthost false the call fails with a
scheme-mismatch or host-mismatch error before any network interaction
(the error is the same for every transport); with exthost true every
returning call used a transient connection to the foreign netloc, left
the caller-supplied authorization header binding untouched (the session
key is never attached), and closed the transient connection before
returning. -/
theorem c2_doRequest_endpoint_affinity (resolve : String → UriParts) (sess : Session)
    (transport : Transport) (uripath method : String) (bodyArg : Option String)
    (ctype accept : Option String) (reqheaders : List (String × String))
    (hmis : ((resolve uripath).scheme ≠ "" ∧ (resolve uripath).scheme ≠ sess.scheme) ∨
            ((resolve uripath).netloc ≠ "" ∧ (resolve uripath).netloc ≠ sess.host)) :
    (((resolve uripath).scheme ≠ "" ∧ (resolve uripath).scheme ≠ sess.scheme) →
      doRequest resolve sess transport uripath method bodyArg ctype accept reqheaders false
        = .error (.httpError "URI scheme mismatch" (some (resolve uripath).scheme) sess.baseuri))
    ∧ (¬((resolve uripath).scheme ≠ "" ∧ (resolve uripath).scheme ≠ sess.scheme) →
      doRequest resolve sess transport uripath method bodyArg ctype accept reqheaders false
        = .error (.httpError "URI host:port mismatch" (some (resolve uripath).netloc) sess.baseuri))
    ∧ (∀ o, doRequest resolve sess transport uripath method bodyArg ctype accept reqheaders true
          = .ok o →
        o.conn = .transient (resolve uripath).netloc
        ∧ dictGet o.sent.headers "authorization" = dictGet reqheaders "authorization"
        ∧ o.newConnClosed = true) := by
  refine ⟨?_, ?_, ?_⟩
  · intro hs
    simp only [doRequest, connSelect_mismatch_scheme sess (resolve uripath) hs]
  · intro hns
    have hh : (resolve uripath).netloc ≠ "" ∧ (resolve uripath).netloc ≠ sess.host :=
      hmis.resolve_left hns
    simp only [doRequest, connSelect_mismatch_host sess (resolve uripath) hns hh]
  · intro o ho
    simp only [doRequest, connSelect_exthost sess (resolve uripath) hmis] at ho
    cases htr : transport (.transient (resolve uripath).netloc)
        ⟨method, requestPath (resolve uripath), bodyArg,
          buildReqHeaders none ctype accept reqheaders⟩ with
    | sendErr e => rw [htr] at ho; cases ho
    | recvErr e =>
      rw [htr] at ho
      injection ho with ho
      subst ho
      exact ⟨rfl, buildReqHeaders_auth_of_none ctype accept reqheaders, rfl⟩
    | ok r =>
      rw [htr] at ho
      injection ho with ho
      subst ho
      exact ⟨rfl, buildReqHeaders_auth_of_none ctype accept reqheaders, rfl⟩

/-- C2 witness: a request to a foreign host is rejected with a
host-mismatch error without opt-in, and with opt-in it runs on a closed
transient connection without a credential. -/
theorem c2_witness :
    (doRequest resolveOther sessEx transportOk200 "/x" "GET" none none none [] false
      = .error (.httpError "URI host:port mismatch" (some "other") "http://h/"))
    ∧ (∃ o, doRequest resolveOther sessEx transportOk200 "/x" "GET" none none none [] true
          = .ok o
        ∧ o.conn = .transient "other"
        ∧ dictGet o.sent.headers "authorization" = none
        ∧ o.newConnClosed = true) := by
  have h := c2_doRequest_endpoint_affinity resolveOther sessEx transportOk200 "/x" "GET"
    none none none [] (Or.inr ⟨by decide, by decide⟩)
  refine ⟨h.2.1 (by decide), ⟨_, rfl, ?_⟩⟩
  have h3 := h.2.2 _ rfl
  exact ⟨h3.1, h3.2.1, h3.2.2⟩

/-- C10 Every header collection returned by doRequest contains the
synthetic _headerlist key bound to a header list that the parseLinks
method consumes totally; on a transport failure caught by the try block
the header collection is exactly the singleton _headerlist-to-empty-list
map, and on a transport success _headerlist holds the ordered
lower-cased (name, value) pairs of the raw response headers. -/
theorem c10_headerlist_invariant (resolve : String → UriParts) (sess : Session)
    (transport : Transport) (uripath method : String) (bodyArg : Option String)
    (ctype accept : Option String) (reqheaders : List (String × String)) (exthost : Bool) :
    (∀ o, doRequest resolve sess transport uripath method bodyArg ctype accept reqheaders exthost
        = .ok o →
      ∃ l, dictGet o.headers "_headerlist" = some (.list l)
        ∧ sessionParseLinks o.headers = .ok (parseLinks l))
    ∧ (∀ conn usekey, connSelect sess (resolve uripath) exthost = .ok (conn, usekey) →
       ∀ e, transport conn ⟨method, requestPath (resolve uripath), bodyArg,
           buildReqHeaders usekey ctype accept reqheaders⟩ = .recvErr e →
       ∀ o, doRequest resolve sess transport uripath method bodyArg ctype accept reqheaders
           exthost = .ok o →
         o.headers = [("_headerlist", HVal.list [])])
    ∧ (∀ conn usekey, connSelect sess (resolve uripath) exthost = .ok (conn, usekey) →
       ∀ r, transport conn ⟨method, requestPath (resolve uripath), bodyArg,
           buildReqHeaders usekey ctype accept reqheaders⟩ = .ok r →
       ∀ o, doRequest resolve sess transport uripath method bodyArg ctype accept reqheaders
           exthost = .ok o →
         dictGet o.headers "_headerlist"
           = some (.list (r.rawheaders.map (fun p => (pyLower p.1, p.2))))) := by
  refine ⟨?_, ?_, ?_⟩
  · intro o ho
    cases hcs : connSelect sess (resolve uripath) exthost with
    | error e => simp only [doRequest, hcs] at ho; cases ho
    | ok cu =>
      obtain ⟨conn, usekey⟩ := cu
      simp only [doRequest, hcs] at ho
      cases htr : transport conn ⟨method, requestPath (resolve uripath), bodyArg,
          buildReqHeaders usekey ctype accept reqheaders⟩ with
      | sendErr e => rw [htr] at ho; cases ho
      | recvErr e =>
        rw [htr] at ho
        injection ho with ho
        subst ho
        exact ⟨[], rfl, rfl⟩
      | ok r =>
        rw [htr] at ho
        injection ho with ho
        subst ho
        refine ⟨r.rawheaders.map (fun p => (pyLower p.1, p.2)), ?_, ?_⟩
        · simp [dictGet_upsert]
        · unfold sessionParseLinks
          rw [show dictGet (dictUpsert ((dictOfPairs (r.rawheaders.map
              (fun p => (pyLower p.1, p.2)))).map (fun p => (p.1, HVal.str p.2)))
              "_headerlist" (.list (r.rawheaders.map (fun p => (pyLower p.1, p.2)))))
              "_headerlist"
            = some (.list (r.rawheaders.map (fun p => (pyLower p.1, p.2)))) by
              simp [dictGet_upsert]]
  · intro conn usekey hcs e htr o ho
    simp only [doRequest, hcs, htr] at ho
    injection ho with ho
    subst ho
    rfl
  · intro conn usekey hcs r htr o ho
    simp only [doRequest, hcs, htr] at ho
    injection ho with ho
    subst ho
    simp [dictGet_upsert]

/-- C10 witness: a concrete 200 response carries the _headerlist entry
and link parsing succeeds on it. -/
theorem c10_witness :
    ∃ o, doRequest resolveEx sessEx transportOk200 "/x" "GET" none none none [] false = .ok o
      ∧ ∃ l, dictGet o.headers "_headerlist" = some (.list l)
        ∧ sessionParseLinks o.headers = .ok (parseLinks l) :=
  ⟨_, rfl, (c10_headerlist_invariant resolveEx sessEx transportOk200 "/x" "GET" none none
    none [] false).1 _ rfl⟩

def transport302 : Transport := fun _ _ => .ok ⟨302, "Found", [("Location", "/r")], "b"⟩

/-- A dictionary update never produces an empty dictionary. -/
theorem dictUpsert_ne_nil {β : Type} (m : List (String × β)) (k : String) (v : β) :
    dictUpsert m k v ≠ [] := by
  unfold dictUpsert
  by_cases h : m.any (fun p => p.1 = k)
  · cases m with
    | nil => simp at h
    | cons a l => simp [h]
  · simp [h]

/-- With no accept argument, header assembly leaves the accept binding
of the dictionary unchanged. -/
theorem buildReqHeaders_get_accept_none (u c : Option String)
    (rh : List (String × String)) :
    dictGet (buildReqHeaders u c none rh) "accept" = dictGet rh "accept" := by
  unfold buildReqHeaders
  rcases u with _ | k
  · rcases c with _ | ct
    · rfl
    · by_cases hc : ct = "" <;> simp [hc, dictGet_upsert]
  · rcases c with _ | ct
    · by_cases hk : k = "" <;> simp [hk, dictGet_upsert]
    · by_cases hk : k = "" <;> by_cases hc : ct = "" <;> simp [hk, hc, dictGet_upsert]

/-- With a nonempty accept argument, header assembly binds accept to it. -/
theorem buildReqHeaders_get_accept_some (u c : Option String) (a : String) (ha : a ≠ "")
    (rh : List (String × String)) :
    dictGet (buildReqHeaders u c (some a) rh) "accept" = some a := by
  simp only [buildReqHeaders, if_neg ha]
  simp [dictGet_upsert]

/-- With a nonempty accept argument, the assembled header dictionary is
nonempty. -/
theorem buildReqHeaders_some_ne_nil (u c : Option String) (a : String) (ha : a ≠ "")
    (rh : List (String × String)) :
    buildReqHeaders u c (some a) rh ≠ [] := by
  simp only [buildReqHeaders, if_neg ha]
  exact dictUpsert_ne_nil _ "accept" a

/-- Inversion for returning doRequest calls: the sent headers are the
assembled ones and the caller-visible reqheaders state is mutated
exactly when the incoming dictionary was truthy. -/
theorem doRequest_ok_inv (resolve : String → UriParts) (sess : Session)
    (transport : Transport) (uripath method : String) (bodyArg : Option String)
    (ctype accept : Option String) (reqheaders : List (String × String)) (exthost : Bool)
    (o : DoReqOutcome)
    (h : doRequest resolve sess transport uripath method bodyArg ctype accept reqheaders
        exthost = .ok o) :
    ∃ conn usekey, connSelect sess (resolve uripath) exthost = .ok (conn, usekey)
      ∧ o.sent.headers = buildReqHeaders usekey ctype accept reqheaders
      ∧ o.reqh = (if reqheaders.isEmpty then reqheaders
                  else buildReqHeaders usekey ctype accept reqheaders) := by
  cases hcs : connSelect sess (resolve uripath) exthost with
  | error e => simp only [doRequest, hcs] at h; cases h
  | ok cu =>
    obtain ⟨conn, usekey⟩ := cu
    simp only [doRequest, hcs] at h
    cases htr : transport conn ⟨method, requestPath (resolve uripath), bodyArg,
        buildReqHeaders usekey ctype accept reqheaders⟩ with
    | sendErr e => rw [htr] at h; cases h
    | recvErr e =>
      rw [htr] at h
      injection h with h
      subst h
      exact ⟨conn, usekey, rfl, rfl, rfl⟩
    | ok r =>
      rw [htr] at h
      injection h with h
      subst h
      exact ⟨conn, usekey, rfl, rfl, rfl⟩

/-- C3 (amended) doRequestFollowRedirect issues the base request; on a
302, 303 or 307 status it re-issues the request with the same method,
body and header arguments (including accept) against the location
header value and records that value as the final URI; if the second
response is 302 or 307 (not 303) exactly one further redirect is
followed with the accept argument omitted; no more than two redirects
are ever followed and a third redirect response is returned as-is.  The
same reqheaders dictionary object is passed to all three calls and
doRequest mutates it in place when it is truthy, so the third request
lacks the accept header when the caller supplied no (or an empty)
extra-header dictionary, but retains it unchanged when the caller
supplied a nonempty one. -/
theorem c3_redirect_policy (resolve : String → UriParts) (sess : Session)
    (transport : Transport) (uripath method : String) (bodyArg : Option String)
    (ctype accept : Option String) (reqheaders : List (String × String)) (exthost : Bool)
    (o1 : DoReqOutcome)
    (h1 : doRequest resolve sess transport uripath method bodyArg ctype accept reqheaders
        exthost = .ok o1) :
    (¬(o1.status = 302 ∨ o1.status = 303 ∨ o1.status = 307) →
      doRequestFollowRedirect resolve sess transport uripath method bodyArg ctype accept
          reqheaders exthost
        = .ok ⟨[o1], o1.status, o1.reason, o1.headers, uripath, o1.data⟩)
    ∧ (∀ u2 o2, (o1.status = 302 ∨ o1.status = 303 ∨ o1.status = 307) →
        getLocation o1.headers = .ok u2 →
        doRequest resolve sess transport u2 method bodyArg ctype accept o1.reqh exthost
          = .ok o2 →
        (¬(o2.status = 302 ∨ o2.status = 307) →
          doRequestFollowRedirect resolve sess transport uripath method bodyArg ctype accept
              reqheaders exthost
            = .ok ⟨[o1, o2], o2.status, o2.reason, o2.headers, u2, o2.data⟩)
        ∧ (∀ u3 o3, (o2.status = 302 ∨ o2.status = 307) →
            getLocation o2.headers = .ok u3 →
            doRequest resolve sess transport u3 method bodyArg ctype none o2.reqh exthost
              = .ok o3 →
            (doRequestFollowRedirect resolve sess transport uripath method bodyArg ctype
                accept reqheaders exthost
              = .ok ⟨[o1, o2, o3], o3.status, o3.reason, o3.headers, u3, o3.data⟩)
            ∧ (reqheaders = [] → dictGet o3.sent.headers "accept" = none)
            ∧ (∀ a, reqheaders ≠ [] → accept = some a → a ≠ "" →
                dictGet o3.sent.headers "accept" = some a))) := by
  constructor
  · intro hns
    have hns2 : ¬(o1.status = 302 ∨ o1.status = 307) := by tauto
    simp only [doRequestFollowRedirect, h1]
    rw [if_neg hns]
    unfold redirectSecondStep
    rw [if_neg hns2]
  · intro u2 o2 hs1 hloc h2
    constructor
    · intro hns2
      simp only [doRequestFollowRedirect, h1]
      rw [if_pos hs1, hloc]
      simp only [h2]
      unfold redirectSecondStep
      rw [if_neg hns2]
    · intro u3 o3 hs2 hloc2 h3
      refine ⟨?_, ?_, ?_⟩
      · simp only [doRequestFollowRedirect, h1]
        rw [if_pos hs1, hloc]
        simp only [h2]
        unfold redirectSecondStep
        rw [if_pos hs2, hloc2]
        simp only [h3]
        rfl
      · intro hre
        subst hre
        obtain ⟨c1, k1, hcs1, hs1h, hr1⟩ := doRequest_ok_inv _ _ _ _ _ _ _ _ _ _ _ h1
        simp only [List.isEmpty_nil, if_true] at hr1
        obtain ⟨c2, k2, hcs2, hs2h, hr2⟩ := doRequest_ok_inv _ _ _ _ _ _ _ _ _ _ _ h2
        rw [hr1] at hr2
        simp only [List.isEmpty_nil, if_true] at hr2
        obtain ⟨c3, k3, hcs3, hs3h, hr3⟩ := doRequest_ok_inv _ _ _ _ _ _ _ _ _ _ _ h3
        rw [hs3h, buildReqHeaders_get_accept_none, hr2]
        rfl
      · intro a hne hacc ha
        subst hacc
        obtain ⟨c1, k1, hcs1, hs1h, hr1⟩ := doRequest_ok_inv _ _ _ _ _ _ _ _ _ _ _ h1
        have hr1e : o1.reqh = buildReqHeaders k1 ctype (some a) reqheaders := by
          rw [hr1, if_neg (by simpa [List.isEmpty_iff] using hne)]
        have hne1 : o1.reqh ≠ [] := by
          rw [hr1e]
          exact buildReqHeaders_some_ne_nil k1 ctype a ha reqheaders
        obtain ⟨c2, k2, hcs2, hs2h, hr2⟩ := doRequest_ok_inv _ _ _ _ _ _ _ _ _ _ _ h2
        have hr2e : o2.reqh = buildReqHeaders k2 ctype (some a) o1.reqh := by
          rw [hr2, if_neg (by simpa [List.isEmpty_iff] using hne1)]
        have hacc2 : dictGet o2.reqh "accept" = some a := by
          rw [hr2e]
          exact buildReqHeaders_get_accept_some k2 ctype a ha o1.reqh
        obtain ⟨c3, k3, hcs3, hs3h, hr3⟩ := doRequest_ok_inv _ _ _ _ _ _ _ _ _ _ _ h3
        rw [hs3h, buildReqHeaders_get_accept_none]
        exact hacc2

/-- C3 counterexample: with a non-absent accept argument and no
caller-supplied extra headers, the third request is not identical to the
first two, because the second re-issue passes no accept (lines 309-312)
and the fresh local header dictionaries of the earlier calls leave
nothing behind for the third to inherit. -/
theorem c3_accept_dropped_on_second_redirect :
    Except.map (fun r => r.trace.map (fun o => dictGet o.sent.headers "accept"))
      (doRequestFollowRedirect resolveEx sessEx transport302 "/x" "GET" none none
        (some "application/rdf+xml") [] false)
      = .ok [some "application/rdf+xml", some "application/rdf+xml", none] := rfl

/-- C3 witness: a chain of 302 responses is followed exactly twice with
the third redirect response returned as-is, and with a nonempty caller
dictionary the in-place mutation keeps the accept header on all three
outgoing requests. -/
theorem c3_witness :
    (∃ r, doRequestFollowRedirect resolveEx sessEx transport302 "/x" "GET" none none
        (some "application/rdf+xml") [] false = .ok r
      ∧ r.trace.length = 3 ∧ r.finalUri = "/r" ∧ r.status = 302)
    ∧ Except.map (fun r => r.trace.map (fun o => dictGet o.sent.headers "accept"))
        (doRequestFollowRedirect resolveEx sessEx transport302 "/x" "GET" none none
          (some "application/rdf+xml") [("x", "y")] false)
        = .ok [some "application/rdf+xml", some "application/rdf+xml",
            some "application/rdf+xml"] := by
  constructor
  · have h := c3_redirect_policy resolveEx sessEx transport302 "/x" "GET" none none
      (some "application/rdf+xml") [] false _ rfl
    have h2 := h.2 "/r" _ (Or.inl rfl) rfl rfl
    have h3 := (h2.2 "/r" _ (Or.inl rfl) rfl rfl).1
    exact ⟨_, h3, rfl, rfl, rfl⟩
  · rfl

/-- C4 For every doRequestRDF call whose pre-dispatch response tuple
carries a 2xx status: if the content-type header (lower-cased, with
parameters after the semicolon stripped) is not a recognized RDF
serialization the result is status 901 with the body unchanged; if it
is recognized and parsing in the implied serialization fails the result
is status 902 with the body unchanged; if parsing succeeds the body is
the graph parsed into the caller-supplied graph when one was provided
and into a fresh graph otherwise.  A non-2xx response is passed through
unchanged for every parser, so no parse is attempted. -/
theorem c4_doRequestRDF_negotiation {α : Type} (resolve : String → UriParts) (sess : Session)
    (transport : Transport) (extGet : String → ExtResponse)
    (jsonText : String → Except PyExn (Option String))
    (rdfParse : List α → String → String → Option (List α))
    (uripath method : String) (bodyArg : Option String) (ctype : Option String)
    (reqheaders : List (String × String)) (exthost : Bool) (graphArg : Option (List α))
    (u : String) (status : Int) (reason : String) (headers : List (String × HVal))
    (data : Body α)
    (hpre : rdfPreStage (α := α) resolve sess transport extGet jsonText uripath method
        bodyArg ctype reqheaders exthost = .ok (u, status, reason, headers, data)) :
    (¬(200 ≤ status ∧ status < 300) →
      doRequestRDF resolve sess transport extGet jsonText rdfParse uripath method bodyArg
          ctype reqheaders exthost graphArg = .ok (status, reason, headers, data))
    ∧ (∀ ct, (200 ≤ status ∧ status < 300) →
        dictGet headers "content-type" = some (.str ct) →
        (dictGet rdfContentTypes (pyLower (pyStrip (pyIndex0 (pySplitOnce ct ";")))) = none →
          doRequestRDF resolve sess transport extGet jsonText rdfParse uripath method bodyArg
              ctype reqheaders exthost graphArg
            = .ok (901, "Non-RDF content-type returned", headers, data))
        ∧ (∀ fmt0,
            dictGet rdfContentTypes (pyLower (pyStrip (pyIndex0 (pySplitOnce ct ";"))))
              = some fmt0 →
            (rdfParse (graphArg.getD []) (rdfFormatFor u fmt0) data.asString = none →
              doRequestRDF resolve sess transport extGet jsonText rdfParse uripath method
                  bodyArg ctype reqheaders exthost graphArg
                = .ok (902, "RDF (" ++ rdfFormatFor u fmt0 ++ ") parse failure", headers, data))
            ∧ (∀ g2,
                rdfParse (graphArg.getD []) (rdfFormatFor u fmt0) data.asString = some g2 →
                doRequestRDF resolve sess transport extGet jsonText rdfParse uripath method
                    bodyArg ctype reqheaders exthost graphArg
                  = .ok (status, reason, headers, .graph g2)))) := by
  constructor
  · intro hn
    simp only [doRequestRDF, hpre, rdfDispatch]
    rw [if_neg hn]
  · intro ct h2 hct
    refine ⟨?_, ?_⟩
    · intro hnone
      simp only [doRequestRDF, hpre, rdfDispatch]
      rw [if_pos h2, hct]
      simp only [hnone]
    · intro fmt0 hsome
      refine ⟨?_, ?_⟩
      · intro hpf
        simp only [doRequestRDF, hpre, rdfDispatch]
        rw [if_pos h2, hct]
        simp only [hsome, hpf]
      · intro g2 hps
        simp only [doRequestRDF, hpre, rdfDispatch]
        rw [if_pos h2, hct]
        simp only [hsome, hps]

def transportTurtle : Transport := fun _ _ =>
  .ok ⟨200, "OK", [("Content-Type", "text/turtle")], "body"⟩

def extGetEx : String → ExtResponse := fun u => ⟨u, 200, "OK", [], ""⟩

def jsonTextEx : String → Except PyExn (Option String) := fun _ => .ok none

def rdfParseEx : List String → String → String → Option (List String) :=
  fun g fmt s => some (g ++ [fmt ++ ":" ++ s])

/-- C4 witness: a 200 turtle response is parsed into a fresh graph with
status and headers preserved. -/
theorem c4_witness :
    doRequestRDF resolveEx sessEx transportTurtle extGetEx jsonTextEx rdfParseEx "/m" "GET"
        none none [] false none
      = .ok (200, "OK",
          [("content-type", .str "text/turtle"),
           ("_headerlist", .list [("content-type", "text/turtle")])],
          .graph ["n3:body"]) := by
  have h := c4_doRequestRDF_negotiation resolveEx sessEx transportTurtle extGetEx jsonTextEx
    rdfParseEx "/m" "GET" none none [] false none "/m" 200 "OK"
    [("content-type", .str "text/turtle"),
     ("_headerlist", .list [("content-type", "text/turtle")])]
    (.raw "body") rfl
  exact (((h.2 "text/turtle" (by norm_num) rfl).2 "n3" rfl).2 ["n3:body"] rfl)

/-- Structural characterization of the splitValues scan: the segments it
returns are one more than the separators it consumes, and interleaving
the segments with those separator characters rebuilds the input, so the
scan splits exactly at the consumed positions and loses nothing. -/
theorem svAux_spec (sep lq rq : List Char) (st : Option Char) (seg l : List Char) :
    (svAux sep lq rq st seg l).length = (svSeps sep lq rq st l).length + 1
    ∧ interleave (svAux sep lq rq st seg l) (svSeps sep lq rq st l) = seg.reverse ++ l := by
  induction st, seg, l using svAux.induct sep lq rq with
  | case1 st seg =>
    cases st <;> simp [svAux, svSeps, interleave]
  | case2 seg c rest ih =>
    have e1 : svAux sep lq rq (some c) seg (c :: rest) = svAux sep lq rq none (c :: seg) rest := by
      cases rest <;> simp [svAux]
    have e2 : svSeps sep lq rq (some c) (c :: rest) = svSeps sep lq rq none rest := by
      cases rest <;> simp [svSeps]
    rw [e1, e2]
    exact ⟨ih.1, by rw [ih.2]; simp⟩
  | case3 eq seg hne =>
    have e1 : svAux sep lq rq (some eq) seg ['\\'] = [('\\' :: seg).reverse] := by
      simp [svAux, hne]
    have e2 : svSeps sep lq rq (some eq) ['\\'] = [] := by
      simp [svSeps, hne]
    rw [e1, e2]
    simp [interleave]
  | case4 eq seg d rest2 hne ih =>
    have e1 : svAux sep lq rq (some eq) seg ('\\' :: d :: rest2)
        = svAux sep lq rq (some eq) (d :: '\\' :: seg) rest2 := by
      simp [svAux, hne]
    have e2 : svSeps sep lq rq (some eq) ('\\' :: d :: rest2)
        = svSeps sep lq rq (some eq) rest2 := by
      simp [svSeps, hne]
    rw [e1, e2]
    exact ⟨ih.1, by rw [ih.2]; simp⟩
  | case5 eq seg c rest hne hnb ih =>
    have e1 : svAux sep lq rq (some eq) seg (c :: rest)
        = svAux sep lq rq (some eq) (c :: seg) rest := by
      cases rest <;> simp [svAux, hne, hnb]
    have e2 : svSeps sep lq rq (some eq) (c :: rest) = svSeps sep lq rq (some eq) rest := by
      cases rest <;> simp [svSeps, hne, hnb]
    rw [e1, e2]
    exact ⟨ih.1, by rw [ih.2]; simp⟩
  | case6 seg c rest hmem ih =>
    have e1 : svAux sep lq rq none seg (c :: rest)
        = svAux sep lq rq (some (rq.getD (lq.indexOf c) c)) (c :: seg) rest := by
      simp [svAux, hmem]
    have e2 : svSeps sep lq rq none (c :: rest)
        = svSeps sep lq rq (some (rq.getD (lq.indexOf c) c)) rest := by
      simp [svSeps, hmem]
    rw [e1, e2]
    exact ⟨ih.1, by rw [ih.2]; simp⟩
  | case7 seg c rest hnl hmem ih =>
    have e1 : svAux sep lq rq none seg (c :: rest)
        = seg.reverse :: svAux sep lq rq none [] rest := by
      simp [svAux, hnl, hmem]
    have e2 : svSeps sep lq rq none (c :: rest) = c :: svSeps sep lq rq none rest := by
      simp [svSeps, hnl, hmem]
    rw [e1, e2]
    refine ⟨by simp [ih.1], ?_⟩
    simp only [interleave, ih.2]
    simp
  | case8 seg c rest hnl hns ih =>
    have e1 : svAux sep lq rq none seg (c :: rest) = svAux sep lq rq none (c :: seg) rest := by
      simp [svAux, hnl, hns]
    have e2 : svSeps sep lq rq none (c :: rest) = svSeps sep lq rq none rest := by
      simp [svSeps, hnl, hns]
    rw [e1, e2]
    exact ⟨ih.1, by rw [ih.2]; simp⟩

/-- Every separator consumed by the scan is drawn from the separator
set. -/
theorem svSeps_subset (sep lq rq : List Char) (st : Option Char) (l : List Char) :
    ∀ c ∈ svSeps sep lq rq st l, c ∈ sep := by
  induction st, l using svSeps.induct sep lq rq with
  | case1 st => cases st <;> simp [svSeps]
  | case2 c rest ih =>
    have e2 : svSeps sep lq rq (some c) (c :: rest) = svSeps sep lq rq none rest := by
      cases rest <;> simp [svSeps]
    rw [e2]; exact ih
  | case3 eq hne => simp [svSeps, hne]
  | case4 eq d rest2 hne ih =>
    have e2 : svSeps sep lq rq (some eq) ('\\' :: d :: rest2)
        = svSeps sep lq rq (some eq) rest2 := by
      simp [svSeps, hne]
    rw [e2]; exact ih
  | case5 eq c rest hne hnb ih =>
    have e2 : svSeps sep lq rq (some eq) (c :: rest) = svSeps sep lq rq (some eq) rest := by
      cases rest <;> simp [svSeps, hne, hnb]
    rw [e2]; exact ih
  | case6 c rest hmem ih =>
    have e2 : svSeps sep lq rq none (c :: rest)
        = svSeps sep lq rq (some (rq.getD (lq.indexOf c) c)) rest := by
      simp [svSeps, hmem]
    rw [e2]; exact ih
  | case7 c rest hnl hmem ih =>
    have e2 : svSeps sep lq rq none (c :: rest) = c :: svSeps sep lq rq none rest := by
      simp [svSeps, hnl, hmem]
    rw [e2]
    intro d hd
    rcases List.mem_cons.mp hd with rfl | hd
    · exact hmem
    · exact ih d hd
  | case8 c rest hnl hns ih =>
    have e2 : svSeps sep lq rq none (c :: rest) = svSeps sep lq rq none rest := by
      simp [svSeps, hnl, hns]
    rw [e2]; exact ih

/-- C7 splitValues returns the ordered sequence of segments split on
unquoted separator occurrences, for paired quote and bracket sets: an
input with N unquoted separators yields exactly N+1 segments (the final,
possibly empty, segment always included), the segments interleaved with
the consumed separator characters rebuild the input, every consumed
separator is in the separator set, and the concrete vectors of the
source tests show the quoted-separator inertness, the backslash escape,
the inert separator inside brackets, simultaneous distinct quote and
bracket pairs, and the unterminated span consuming to end of string
without error. -/
theorem c7_splitValues_tokenizer (txt sep lq rq : List Char)
    (hpair : rq.length = lq.length) :
    ((splitValues txt sep lq rq).length = (unquotedSeps txt sep lq rq).length + 1
      ∧ interleave (splitValues txt sep lq rq) (unquotedSeps txt sep lq rq) = txt
      ∧ ∀ c ∈ unquotedSeps txt sep lq rq, c ∈ sep)
    ∧ ((splitValues "a,b,c".toList sepD lqD rqD).map String.mk = ["a", "b", "c"]
      ∧ (splitValues "a,\"b,c\",d".toList sepD lqD rqD).map String.mk = ["a", "\"b,c\"", "d"]
      ∧ (splitValues "a, \"b, c\\\", c1\", d".toList sepD lqD rqD).map String.mk
          = ["a", " \"b, c\\\", c1\"", " d"]
      ∧ (splitValues "a,\"b,c\",d".toList [';'] lqD rqD).map String.mk = ["a,\"b,c\",d"]
      ∧ (splitValues "a;<b;c>;d".toList [';'] lqD rqD).map String.mk = ["a", "<b;c>", "d"]
      ∧ (splitValues "\"a;b\";(c;d);e".toList [';'] ['"', '('] ['"', ')']).map String.mk
          = ["\"a;b\"", "(c;d)", "e"]
      ∧ (splitValues "a,\"b,c".toList sepD lqD rqD).map String.mk = ["a", "\"b,c"]) := by
  refine ⟨⟨(svAux_spec sep lq rq none [] txt).1, (svAux_spec sep lq rq none [] txt).2, ?_⟩,
    rfl, rfl, rfl, rfl, rfl, rfl, rfl⟩
  exact svSeps_subset sep lq rq none txt

/-- C7 witness at the three-segment test vector. -/
theorem c7_witness :
    ((splitValues "a,b,c".toList sepD lqD rqD).length
        = (unquotedSeps "a,b,c".toList sepD lqD rqD).length + 1)
    ∧ interleave (splitValues "a,b,c".toList sepD lqD rqD)
        (unquotedSeps "a,b,c".toList sepD lqD rqD) = "a,b,c".toList := by
  have h := c7_splitValues_tokenizer "a,b,c".toList sepD lqD rqD rfl
  exact ⟨h.1.1, h.1.2.1⟩

/-- Dictionary application lemmas for the parseLinks characterization. -/
theorem applyContribs_nil (m : List (String × String)) : applyContribs m [] = m := rfl

theorem applyContribs_cons (m : List (String × String)) (c : String × String)
    (cs : List (String × String)) :
    applyContribs m (c :: cs) = applyContribs (dictUpsert m c.1 c.2) cs := rfl

theorem applyContribs_append (m : List (String × String)) (cs ds : List (String × String)) :
    applyContribs m (cs ++ ds) = applyContribs (applyContribs m cs) ds := by
  simp [applyContribs, List.foldl_append]

theorem relFold_eq (linkuri : List Char) (ps : List (List Char)) (m : List (String × String)) :
    ps.foldl (fun links2 linkparam =>
      match relMatch linkparam with
      | some linkrel => dictUpsert links2 (String.mk linkrel) (String.mk linkuri)
      | none => links2) m
    = applyContribs m (ps.filterMap (fun linkparam =>
        (relMatch linkparam).map (fun linkrel => (String.mk linkrel, String.mk linkuri)))) := by
  induction ps generalizing m with
  | nil => rfl
  | cons p ps ih =>
    rw [List.foldl_cons, List.filterMap_cons]
    cases hp : relMatch p with
    | none => simp only [hp, Option.map_none']; exact ih m
    | some rel =>
      simp only [hp, Option.map_some']
      rw [applyContribs_cons]
      exact ih _

theorem valFold_eq (vs : List (List Char)) (m : List (String × String)) :
    vs.foldl (fun links1 linkval =>
      match splitValues linkval [';'] lqD rqD with
      | [] => links1
      | p0 :: ps =>
        match linkUriMatch p0 with
        | none => links1
        | some linkuri =>
          ps.foldl (fun links2 linkparam =>
            match relMatch linkparam with
            | some linkrel => dictUpsert links2 (String.mk linkrel) (String.mk linkuri)
            | none => links2) links1) m
    = applyContribs m (vs.flatMap (fun linkval =>
        match splitValues linkval [';'] lqD rqD with
        | [] => []
        | p0 :: ps =>
          match linkUriMatch p0 with
          | none => []
          | some linkuri =>
            ps.filterMap (fun linkparam =>
              (relMatch linkparam).map (fun linkrel =>
                (String.mk linkrel, String.mk linkuri))))) := by
  induction vs generalizing m with
  | nil => rfl
  | cons v vs ih =>
    rw [List.foldl_cons, List.flatMap_cons, applyContribs_append, ih]
    congr 1
    beta_reduce
    cases hs : splitValues v [';'] lqD rqD with
    | nil => rfl
    | cons p0 ps =>
      show (match linkUriMatch p0 with
            | none => m
            | some linkuri =>
              ps.foldl (fun links2 linkparam =>
                match relMatch linkparam with
                | some linkrel => dictUpsert links2 (String.mk linkrel) (String.mk linkuri)
                | none => links2) m)
          = applyContribs m (match linkUriMatch p0 with
            | none => []
            | some linkuri =>
              ps.filterMap (fun linkparam =>
                (relMatch linkparam).map (fun linkrel =>
                  (String.mk linkrel, String.mk linkuri))))
      cases hu : linkUriMatch p0 with
      | none => rfl
      | some linkuri => exact relFold_eq linkuri ps m

theorem headerFold_eq (hs : List String) (m : List (String × String)) :
    hs.foldl (fun links0 linkheader =>
      (splitValues linkheader.toList sepD lqD rqD).foldl (fun links1 linkval =>
        match splitValues linkval [';'] lqD rqD with
        | [] => links1
        | p0 :: ps =>
          match linkUriMatch p0 with
          | none => links1
          | some linkuri =>
            ps.foldl (fun links2 linkparam =>
              match relMatch linkparam with
              | some linkrel => dictUpsert links2 (String.mk linkrel) (String.mk linkuri)
              | none => links2) links1) links0) m
    = applyContribs m (hs.flatMap (fun v => linkContribs1 v.toList)) := by
  induction hs generalizing m with
  | nil => rfl
  | cons v vs ih =>
    rw [List.foldl_cons, List.flatMap_cons, applyContribs_append, ih]
    congr 1
    exact valFold_eq (splitValues v.toList sepD lqD rqD) m

theorem parseLinks_eq_applyContribs (hl : List (String × String)) :
    parseLinks hl = applyContribs [] (linkContribs hl) := by
  rw [parseLinks, linkContribs]
  exact headerFold_eq ((hl.filter (fun p => pyLower p.1 == "link")).map (·.2)) []

theorem dictGet_applyContribs (cs : List (String × String)) (m : List (String × String))
    (k : String) :
    dictGet (applyContribs m cs) k
      = match cs.reverse.find? (fun p => p.1 = k) with
        | some p => some p.2
        | none => dictGet m k := by
  induction cs generalizing m with
  | nil => simp [applyContribs]
  | cons c cs ih =>
    rw [applyContribs_cons, ih, List.reverse_cons]
    cases hf : cs.reverse.find? (fun p => p.1 = k) with
    | some p =>
      rw [List.find?_append, hf]
      rfl
    | none =>
      rw [List.find?_append, hf]
      by_cases hc : c.1 = k
      · simp [List.find?_cons, hc, dictGet_upsert]
      · simp [List.find?_cons, hc, dictGet_upsert, Ne.symm hc]

def linkTestHeaders : List (String × String) :=
  [ ("Link", "<http://example.org/foo>; rel=foo")
  , ("Link", " <http://example.org/bar> ; rel = bar ")
  , ("Link", "<http://example.org/bas>; rel=bas; par = zzz , <http://example.org/bat>; rel = bat")
  , ("Link", " <http://example.org/fie> ; par = fie ")
  , ("Link", " <http://example.org/fum> ; rel = \"http://example.org/rel/fum\" ")
  , ("Link", " <http://example.org/fas;far> ; rel = \"http://example.org/rel/fas\" ") ]

/-- C8 (amended) parseLinks builds a flat relation-to-URI map from
exactly the headers whose name case-insensitively equals link: the
lookup of any relation equals the last (relation, uri) contribution in
document order, where a comma-separated value (with bracketed and
quoted spans protected during splitting) contributes its bracketed URI
under each rel parameter of its remaining semicolon-separated parts;
later occurrences of the same relation win; malformed parts are
silently dropped, including a rel value region whose newline is
followed by non-whitespace (the dot of the pattern cannot consume a
newline); a URI containing a semicolon survives intact; the first part
must begin, after optional whitespace, with a bracketed URI, but
content after the closing bracket does not disqualify the segment (the
regular expression is an anchored prefix match). -/
theorem c8_parseLinks_characterization (hl : List (String × String)) (k : String) :
    (dictGet (parseLinks hl) k
        = ((linkContribs hl).reverse.find? (fun p => p.1 = k)).map (·.2)
      ∧ parseLinks hl = parseLinks (hl.filter (fun p => pyLower p.1 == "link")))
    ∧ (dictGet (parseLinks linkTestHeaders) "foo" = some "http://example.org/foo"
      ∧ dictGet (parseLinks linkTestHeaders) "bar" = some "http://example.org/bar"
      ∧ dictGet (parseLinks linkTestHeaders) "bas" = some "http://example.org/bas"
      ∧ dictGet (parseLinks linkTestHeaders) "bat" = some "http://example.org/bat"
      ∧ dictGet (parseLinks linkTestHeaders) "http://example.org/rel/fum"
          = some "http://example.org/fum"
      ∧ dictGet (parseLinks linkTestHeaders) "http://example.org/rel/fas"
          = some "http://example.org/fas;far"
      ∧ dictGet (parseLinks [("Link", "<http://a/1>; rel=r"), ("link", "<http://a/2>; rel=r")])
          "r" = some "http://a/2"
      ∧ parseLinks [("Link", " <http://a>; rel=foo\n bar")] = []) := by
  refine ⟨⟨?_, ?_⟩, rfl, rfl, rfl, rfl, rfl, rfl, rfl, rfl⟩
  · rw [parseLinks_eq_applyContribs, dictGet_applyContribs]
    cases (linkContribs hl).reverse.find? (fun p => p.1 = k) <;> rfl
  · have hff : (hl.filter (fun p => pyLower p.1 == "link")).filter
        (fun p => pyLower p.1 == "link") = hl.filter (fun p => pyLower p.1 == "link") := by
      rw [List.filter_filter]
      exact List.filter_congr (fun a _ => by rw [Bool.and_self])
    rw [parseLinks, parseLinks, hff]

/-- C8 counterexample: the claim says a first part that is not a
bracketed URI with only surrounding whitespace is ignored, but the code
accepts a part with trailing content after the closing angle bracket
and still contributes its URI. -/
theorem c8_trailing_junk_accepted :
    parseLinks [("Link", "<http://a>x; rel=r")] = [("r", "http://a")]
    ∧ claimBracketedUriShape
        ((splitValues "<http://a>x; rel=r".toList [';'] lqD rqD).headD []) = none :=
  ⟨rfl, rfl⟩
